import Mathlib

/-!
Shallow embedding of the EMAIL_SERVER C sources (netbuffer.c, mailuser.c,
mypopd.c, mysmtpd.c) and proofs about the claims of the specification.

Protocol text is modelled as `List Char`, one `Char` per byte (the servers
only handle ASCII protocol text).  Machine details no claim depends on
(errno values, heap layout, the exact reply strings) are abstracted and
noted where they occur.  Reply lines are modelled by inductive response
tokens, one constructor per `send_formatted` call site.
-/

set_option maxRecDepth 8192

namespace EmailServer

/-- A C byte string, one `Char` per byte. -/
abbrev Str := List Char

/-- Byte-wise `tolower` in the POSIX locale, as used by `strcasecmp` and
`strncasecmp` in the sources. -/
def lowerChar (c : Char) : Char :=
  if 'A' ≤ c ∧ c ≤ 'Z' then Char.ofNat (c.toNat + 32) else c

/-- tolower applied to every byte. -/
def lowerL (s : Str) : Str := s.map lowerChar

/-- Case-ignoring equality: `strcasecmp(a, b) == 0`. -/
def ciEq (a b : Str) : Bool := lowerL a == lowerL b

/-- Case-ignoring keyword test: `strncasecmp(p, s, strlen(p)) == 0`, true when
the first `p.length` bytes of `s` equal `p` ignoring case.  A shorter `s`
fails, because the C comparison hits its terminating NUL byte. -/
def ciPre (p s : Str) : Bool := lowerL (List.take p.length s) == lowerL p

/-- Accumulator pass behind `cTokens`: `acc` holds the reversed bytes of the
token being built. -/
def cTokensAux (delims : Str) : Str → Str → List Str
  | [], acc => if acc.isEmpty then [] else [acc.reverse]
  | c :: rest, acc =>
    if c ∈ delims then
      if acc.isEmpty then cTokensAux delims rest []
      else acc.reverse :: cTokensAux delims rest []
    else cTokensAux delims rest (c :: acc)

/-- The successive `strtok(s, delims)` tokens of `s`: maximal runs of
non-delimiter bytes, in order (consecutive delimiters produce no empty
tokens, exactly as `strtok` behaves). -/
def cTokens (delims s : Str) : List Str := cTokensAux delims s []

/-- The command tokenisation both daemons apply to each received line:
`if (strlen(command) >= 4) command = strtok(command, "\r\n");`.
`none` models `strtok` returning NULL (a line of four or more bytes that is
all CR/LF, on which the C code goes on to pass NULL to `strncasecmp`, which
is undefined behaviour; no claim exercises that line shape). -/
def stripCRLF (l : Str) : Option Str :=
  if 4 ≤ l.length then (cTokens ['\r', '\n'] l).head? else some l

/-! ### netbuffer.c -/

/-- The NUL byte `nb_read_line` appends behind every line it hands out. -/
def nulC : Char := Char.ofNat 0

/-- One pending `recv` outcome: `none` is a socket error (recv < 0),
`some []` an orderly close (recv == 0), `some bs` delivered bytes. -/
abbrev Chunk := Option Str

/-- `recv(fd, _, n, 0)` against a queue of arrival chunks: delivers at most
`n` bytes of the first chunk, keeping any remainder queued (as the kernel
receive queue would); an exhausted queue behaves as an orderly close. -/
def recvM (n : Nat) : List Chunk → Chunk × List Chunk
  | [] => (some [], [])
  | none :: rest => (none, rest)
  | some c :: rest =>
    if c.length ≤ n then (some c, rest) else (some (c.take n), some (c.drop n) :: rest)

/-- `memchr(buf, '\n', avail)`: index of the first LF byte. -/
def lineEnd : Str → Option Nat
  | [] => none
  | c :: rest => if c = '\n' then some 0 else (lineEnd rest).map (· + 1)

/-- The epilogue of `nb_read_line`: copy `rv` bytes plus a terminating NUL
into `out` and drop them from the buffer. -/
def nbOut (rv : Nat) (buf : Str) (st : List Chunk) : Int × Str × Str × List Chunk :=
  (Int.ofNat rv, buf.take rv ++ [nulC], buf.drop rv, st)

/-- `nb_read_line` (netbuffer.c): scan the buffered bytes for an LF; while
none is present and the buffer has spare capacity, `recv` more bytes; on an
orderly close or a full buffer hand out everything buffered; surface a
`recv` error unchanged, touching neither the buffer nor `out`.  Result is
(return value, bytes written to `out`, remaining buffered bytes, remaining
arrival queue).  The C loop consumes at least one queued arrival per
iteration, so any `fuel > st.length` makes the bound unreachable. -/
def nbReadLineF (maxB : Nat) : Nat → Str → List Chunk → Int × Str × Str × List Chunk
  | 0, buf, st => (-1, [], buf, st)
  | fuel + 1, buf, st =>
    match lineEnd buf with
    | some i => nbOut (i + 1) buf st
    | none =>
      if buf.length < maxB then
        match recvM (maxB - buf.length) st with
        | (none, st2) => (-1, [], buf, st2)
        | (some [], st2) => nbOut buf.length buf st2
        | (some bs, st2) => nbReadLineF maxB fuel (buf ++ bs) st2
      else nbOut maxB buf st

/-- `nb_read_line` with the always-sufficient fuel bound. -/
def nb_read_line (maxB : Nat) (buf : Str) (st : List Chunk) :
    Int × Str × Str × List Chunk :=
  nbReadLineF maxB (st.length + 1) buf st

/-! ### mailuser.c -/

/-- The credential file: username/password pairs in file order, as the
`fscanf("%s%s")` loop of `is_valid_user` reads them. -/
abbrev Creds := List (Str × Str)

/-- `is_valid_user` (mailuser.c): scan the credential pairs in file order and
stop at the first case-ignoring username match; with no password supplied
that match alone is enough, otherwise the stored password must also match
byte for byte. -/
def is_valid_user (creds : Creds) (username : Str) (password : Option Str) : Bool :=
  match creds with
  | [] => false
  | pr :: rest =>
    if ciEq username pr.1 then
      match password with
      | none => true
      | some p => p == pr.2
    else is_valid_user rest username password

/-- One snapshot entry (`struct mail_item`). -/
structure MailItem where
  file_name : Str
  file_size : Nat
  deleted : Bool
deriving DecidableEq, Repr

/-- `get_mail_count`: entries not marked deleted. -/
def get_mail_count : List MailItem → Nat
  | [] => 0
  | it :: rest => (if it.deleted then 0 else 1) + get_mail_count rest

/-- `get_mail_list_size`: total bytes over entries not marked deleted. -/
def get_mail_list_size : List MailItem → Nat
  | [] => 0
  | it :: rest => (if it.deleted then 0 else it.file_size) + get_mail_list_size rest

/-- `get_mail_item`: the entry at zero-based position `pos` (deleted entries
keep their position), or none when out of range or marked deleted. -/
def get_mail_item : List MailItem → Nat → Option MailItem
  | [], _ => none
  | it :: _, 0 => if it.deleted then none else some it
  | _ :: rest, pos + 1 => get_mail_item rest pos

/-- `mark_mail_item_deleted` on one entry. -/
def mark_mail_item_deleted (it : MailItem) : MailItem := { it with deleted := true }

/-- Marking through the pointer `get_mail_item` returned: update the entry at
position `i` in place. -/
def markAt (l : List MailItem) (i : Nat) : List MailItem :=
  match l.get? i with
  | some it => l.set i (mark_mail_item_deleted it)
  | none => l

/-- `reset_mail_list_deleted_flag`: count the entries marked deleted and clear
every flag; returns (count recovered, updated list). -/
def reset_mail_list_deleted_flag : List MailItem → Nat × List MailItem
  | [] => (0, [])
  | it :: rest =>
    let t := reset_mail_list_deleted_flag rest
    ((if it.deleted then 1 else 0) + t.1, { it with deleted := false } :: t.2)

/-- Entries currently marked deleted. -/
def countDeleted (l : List MailItem) : Nat := (l.filter (fun it => it.deleted)).length

/-- The mail store as the POP daemon sees it: message files by full path with
their byte size. -/
abbrev PopFS := List (Str × Nat)

/-- The directory `load_user_mail` lists for a user. -/
def mailDir (u : Str) : Str := "mail.store/".data ++ u ++ "/".data

/-- `load_user_mail`: one snapshot entry per regular file of the user's
mailbox directory whose name ends in ".mail", each prepended as `readdir`
yields it (so the snapshot holds them in reverse listing order), with the
deleted flag clear.  A file whose `stat` fails would be skipped; stat
failures are not modelled. -/
def load_user_mail (fs : PopFS) (u : Str) : List MailItem :=
  List.foldl
    (fun acc f =>
      if List.isPrefixOf (mailDir u) f.1 && List.isSuffixOf ".mail".data f.1 then
        ⟨f.1, f.2, false⟩ :: acc
      else acc)
    [] fs

/-- `unlink` one path from the store. -/
def unlinkF (p : Str) (fs : PopFS) : PopFS := fs.filter (fun f => !(f.1 == p))

/-- `destroy_mail_list`: walk the snapshot head to tail unlinking every entry
still marked deleted (the memory frees are not modelled). -/
def destroy_mail_list (l : List MailItem) (fs : PopFS) : PopFS :=
  List.foldl (fun f it => if it.deleted then unlinkF it.file_name f else f) fs l

/-! ### mypopd.c -/

/-- `atoi` argument of digits only: value of the leading digit run. -/
def digitsVal : Str → Nat → Nat
  | [], acc => acc
  | c :: rest, acc =>
    if '0' ≤ c ∧ c ≤ '9' then digitsVal rest (10 * acc + (c.toNat - 48)) else acc

/-- `isspace` bytes skipped by `atoi`. -/
def isSpaceC (c : Char) : Bool :=
  c == ' ' || c == '\t' || c == '\n' || c == '\x0b' || c == '\x0c' || c == '\r'

/-- `atoi`: optional leading white space and sign, then the leading digit run
(overflow is not modelled). -/
def atoi (s : Str) : Int :=
  match s.dropWhile isSpaceC with
  | '-' :: rest => -(digitsVal rest 0 : Int)
  | '+' :: rest => (digitsVal rest 0 : Int)
  | t => (digitsVal t 0 : Int)

/-- `get_argument` (mypopd.c): the second blank-separated token, when the line
has at least one blank and a second token exists (the copy into a fresh
buffer is value-irrelevant and not modelled). -/
def get_argument (cmd : Str) : Option Str :=
  if ' ' ∈ cmd then (cTokens [' '] cmd).get? 1 else none

/-- The POP daemon passes `atoi(arg) - 1` (an `int`) to the `unsigned int`
position of `get_mail_item`; a negative value wraps to at least 2^32 - 1,
past the end of any session's snapshot, so the walk returns NULL. -/
def popGetItem (l : List MailItem) (position : Int) : Option MailItem :=
  if position < 0 then none else get_mail_item l position.toNat

/-- One reply token per `send_formatted` call site of mypopd.c. -/
inductive PopResp where
  | ready
  | ok
  | err
  | statR (count size : Nat)
  | listHead (count size : Nat)
  | listItem (pos size : Nat)
  | listOne (pos : Int) (size : Nat)
  | retrHead (size : Nat)
  | retrBody (file : Str)
  | dotR
  | deleOk (pos : Int)
  | rsetOk (n : Nat)
deriving DecidableEq, Repr

/-- The local state of `handle_client` (mypopd.c).  `user_name` and
`mail_list` are uninitialised pointers in the C code until USER / PASS set
them; `none` models the not-yet-set state (the code only reads them on paths
where they were set, except for the QUIT teardown noted at `popRun`). -/
structure PopConfig where
  auth_state : Nat
  transaction_state : Nat
  user_name : Option Str
  mail_list : Option (List MailItem)
deriving DecidableEq, Repr

/-- State at the top of the command loop: the greeting was sent and
`auth_state` was set to 1. -/
def initPop : PopConfig := ⟨1, 0, none, none⟩

/-- The USER branch. -/
def popUser (creds : Creds) (cfg : PopConfig) (cmd : Str) : PopConfig × List PopResp :=
  if cfg.auth_state = 1 then
    let arg := get_argument cmd
    let cfg2 := { cfg with user_name := arg }
    match arg with
    | none => (cfg2, [PopResp.err])
    | some n =>
      if is_valid_user creds n none then
        ({ cfg2 with auth_state := 2 }, [PopResp.ok])
      else (cfg2, [PopResp.err])
  else (cfg, [PopResp.err])

/-- The PASS branch.  On a match it loads the snapshot and sets the
transaction state; on a mismatch it changes nothing (in particular
`auth_state` stays 2). -/
def popPass (creds : Creds) (fs : PopFS) (cfg : PopConfig) (cmd : Str) :
    PopConfig × List PopResp :=
  match cfg.user_name with
  | some un =>
    if cfg.auth_state = 2 then
      match get_argument cmd with
      | none => (cfg, [PopResp.err])
      | some pw =>
        if is_valid_user creds un (some pw) then
          ({ cfg with transaction_state := 1, mail_list := some (load_user_mail fs un) },
           [PopResp.ok])
        else (cfg, [PopResp.err])
    else (cfg, [PopResp.err])
  | none => (cfg, [PopResp.err])

/-- The STAT branch (`check_transactions_state` sends the error reply when the
transaction state is not 1). -/
def popStat (cfg : PopConfig) : PopConfig × List PopResp :=
  if cfg.transaction_state = 1 then
    let l := cfg.mail_list.getD []
    (cfg, [PopResp.statR (get_mail_count l) (get_mail_list_size l)])
  else (cfg, [PopResp.err])

/-- `list_mail_items`: one line per snapshot position holding a non-deleted
entry, then the terminating dot.  The C loop stops once it has printed
`get_mail_count` entries, which emits exactly the non-deleted positions. -/
def list_mail_items (l : List MailItem) : List PopResp :=
  ((List.range l.length).filterMap
    (fun i => (get_mail_item l i).map (fun it => PopResp.listItem (i + 1) it.file_size)))
  ++ [PopResp.dotR]

/-- The LIST branch. -/
def popList (cfg : PopConfig) (cmd : Str) : PopConfig × List PopResp :=
  if cfg.transaction_state = 1 then
    let l := cfg.mail_list.getD []
    match get_argument cmd with
    | none =>
      (cfg, PopResp.listHead (get_mail_count l) (get_mail_list_size l) :: list_mail_items l)
    | some a =>
      match popGetItem l (atoi a - 1) with
      | none => (cfg, [PopResp.err])
      | some it => (cfg, [PopResp.listOne (atoi a) it.file_size])
  else (cfg, [PopResp.err])

/-- The RETR branch (the fgets/strcat pass over the opened file is abstracted
into the `retrBody` token naming the streamed file). -/
def popRetr (cfg : PopConfig) (cmd : Str) : PopConfig × List PopResp :=
  if cfg.transaction_state = 1 then
    let l := cfg.mail_list.getD []
    match get_argument cmd with
    | none => (cfg, [PopResp.err])
    | some a =>
      match popGetItem l (atoi a - 1) with
      | none => (cfg, [PopResp.err])
      | some it =>
        (cfg, [PopResp.retrHead it.file_size, PopResp.retrBody it.file_name, PopResp.dotR])
  else (cfg, [PopResp.err])

/-- The DELE branch: mark the addressed entry through the returned pointer. -/
def popDele (cfg : PopConfig) (cmd : Str) : PopConfig × List PopResp :=
  if cfg.transaction_state = 1 then
    let l := cfg.mail_list.getD []
    match get_argument cmd with
    | none => (cfg, [PopResp.err])
    | some a =>
      match popGetItem l (atoi a - 1) with
      | none => (cfg, [PopResp.err])
      | some _ =>
        ({ cfg with mail_list := some (markAt l (atoi a - 1).toNat) },
         [PopResp.deleOk (atoi a)])
  else (cfg, [PopResp.err])

/-- The RSET branch. -/
def popRset (cfg : PopConfig) : PopConfig × List PopResp :=
  if cfg.transaction_state = 1 then
    let t := reset_mail_list_deleted_flag (cfg.mail_list.getD [])
    ({ cfg with mail_list := some t.2 }, [PopResp.rsetOk t.1])
  else (cfg, [PopResp.err])

/-- One iteration of the mypopd.c command dispatch chain on a tokenised
command line: (new state, replies sent, whether QUIT broke the loop).  A
line matching no branch falls off the chain: no reply, no state change. -/
def popStep (creds : Creds) (fs : PopFS) (cfg : PopConfig) (cmd : Str) :
    PopConfig × List PopResp × Bool :=
  if ciPre "USER".data cmd then
    let t := popUser creds cfg cmd; (t.1, t.2, false)
  else if ciPre "PASS".data cmd then
    let t := popPass creds fs cfg cmd; (t.1, t.2, false)
  else if ciEq "STAT".data cmd then
    let t := popStat cfg; (t.1, t.2, false)
  else if ciPre "LIST".data cmd then
    let t := popList cfg cmd; (t.1, t.2, false)
  else if ciPre "RETR".data cmd then
    let t := popRetr cfg cmd; (t.1, t.2, false)
  else if ciPre "DELE".data cmd then
    let t := popDele cfg cmd; (t.1, t.2, false)
  else if ciEq "NOOP".data cmd then (cfg, [PopResp.ok], false)
  else if ciEq "RSET".data cmd then
    let t := popRset cfg; (t.1, t.2, false)
  else if ciEq "QUIT".data cmd then (cfg, [PopResp.ok], true)
  else (cfg, [], false)

/-- The `while (1)` command loop of `handle_client` (mypopd.c) over the lines
the connection will deliver.  An exhausted line list is `nb_read_line`
returning 0 or less: the function returns at once, and in the C code
`destroy_mail_list` is NOT reached on that path.  Only the QUIT break leads
to the `destroy_mail_list(mail_list)` teardown (called on the possibly
still-uninitialised pointer, modelled as the empty snapshot). -/
def popRun (creds : Creds) (fs : PopFS) : PopConfig → List Str → List PopResp × PopFS
  | _, [] => ([], fs)
  | cfg, l :: rest =>
    match stripCRLF l with
    | none => popRun creds fs cfg rest
    | some cmd =>
      let s := popStep creds fs cfg cmd
      if s.2.2 then (s.2.1, destroy_mail_list (s.1.mail_list.getD []) fs)
      else
        let t := popRun creds fs s.1 rest
        (s.2.1 ++ t.1, t.2)

/-- A whole POP session: greeting reply, then the command loop. -/
def popHandle (creds : Creds) (fs : PopFS) (lines : List Str) : List PopResp × PopFS :=
  let t := popRun creds fs initPop lines
  (PopResp.ready :: t.1, t.2)

/-! ### mysmtpd.c -/

/-- One reply token per `send_formatted` call site of mysmtpd.c
(`ready` 220, `heloOk` 250 nodename, `ok` 250 OK, `badSeq` 503,
`invalidArg` 501, `userNotLocal` 551, `dataStart` 354, `vrfyEcho` the echoed
identity, `ambiguous` 553, `quitR` 221, `invalid` 500). -/
inductive SmtpResp where
  | ready
  | heloOk
  | ok
  | badSeq
  | invalidArg
  | userNotLocal
  | dataStart
  | vrfyEcho (u : Str)
  | ambiguous
  | quitR
  | invalid
deriving DecidableEq, Repr

/-- The local state of `handle_client` (mysmtpd.c): `session_state` (1 after
HELO), `transaction_state` (1 after MAIL, 2 after RCPT), the recorded
sender (an uninitialised pointer until MAIL sets it, modelled `none`) and
the recipient list, which `add_user_to_list` grows by prepending. -/
structure SmtpConfig where
  session_state : Nat
  transaction_state : Nat
  sender : Option Str
  user_list : List Str
deriving DecidableEq, Repr

/-- State at the top of the command loop. -/
def initSmtp : SmtpConfig := ⟨0, 0, none, []⟩

/-- The mail store as the SMTP daemon changes it: per mailbox, the messages in
creation order (each message file is a byte sequence). -/
abbrev SmtpFS := List (Str × List Str)

/-- Place one new message file in one mailbox: the sequence-number probing of
`save_user_mail` always finds an unused name, so the mailbox (created by
`mkdir` if missing) gains exactly one fresh file and no existing file is
overwritten. -/
def deliverTo (msg : Str) (u : Str) : SmtpFS → SmtpFS
  | [] => [(u, [msg])]
  | m :: rest => if m.1 = u then (m.1, m.2 ++ [msg]) :: rest else m :: deliverTo msg u rest

/-- `save_user_mail`: hard-link the spooled message into every recipient's
mailbox, walking the recipient list head to tail. -/
def save_user_mail (msg : Str) (users : List Str) (fs : SmtpFS) : SmtpFS :=
  List.foldl (fun f u => deliverTo msg u f) fs users

/-- `get_client` (mysmtpd.c): sequential strtok parsing of the
`MAIL FROM:<local@domain>` / `RCPT TO:<local@domain>` argument.  Takes the
second blank token, checks it holds a colon and starts (case-ignoring) with
FROM or TO, takes the part after the first colon, in it the part after
leading angle brackets, requires an at sign and a trailing closing angle
bracket, which it strips.  `none` is NULL (the 501 path).  Where the C code
would pass a NULL intermediate token to `strchr` (for example an argument
ending right at the colon), the parse is modelled as `none`; no modelled
input reaches those undefined-behaviour spots. -/
def get_client (forMail : Bool) (cmd : Str) : Option Str :=
  if ' ' ∈ cmd then
    match (cTokens [' '] cmd).get? 1 with
    | none => none
    | some t2 =>
      if ':' ∈ t2 then
        if ciPre (if forMail then "FROM".data else "TO".data) t2 then
          match (cTokens [':'] t2).get? 1 with
          | none => none
          | some t4 =>
            if '<' ∈ t4 then
              match (cTokens ['<'] t4).head? with
              | none => none
              | some t5 =>
                if '@' ∈ t5 then
                  match t5.getLast? with
                  | some c => if c = '>' then some t5.dropLast else none
                  | none => none
                else none
            else none
        else none
      else none
  else none

/-- The line-collecting loop of the DATA branch: starting from the read before
the loop, keep lines while the row index stays at most 1024, data remains
(`result > 0`) and the line is not ".\r\n".  Returns (lines stored into
`text_buffer`, lines left for the command loop).  The line that ends the
loop — the dot line, or the first line past row 1024 — has been read and is
not given back. -/
def smtpCollect : List Str → Nat → List Str × List Str
  | [], _ => ([], [])
  | l :: rest, idx =>
    if idx ≤ 1024 ∧ l ≠ ".\r\n".data then
      let t := smtpCollect rest (idx + 1)
      (l :: t.1, t.2)
    else ([], rest)

/-- The bytes the DATA branch writes into the spool file: for every one of the
1025 rows of the stack array `text_buffer`, `strlen` bytes of that row —
the stored line for rows the loop filled, and otherwise `junk row`, the
residual stack bytes of the never-initialised row up to its first NUL
(lines are assumed NUL-free, as `strcpy` would truncate at a NUL). -/
def bodyBytes (junk : Nat → Str) (stored : List Str) : Str :=
  ((List.range 1025).map
    (fun i => match stored.get? i with | some s => s | none => junk i)).flatten

/-- The `while (1)` command loop of `handle_client` (mysmtpd.c) over the lines
the connection will deliver, returning (replies, final state, final store).
`junk` is the indeterminate initial content of the DATA branch's stack
buffer.  An exhausted line list is `nb_read_line` returning 0 or less: the
function returns.  Fidelity notes, branch by branch:
HELO/EHLO set the session state only (no transaction reset);
MAIL only requires session state 1 and records the parsed sender;
RCPT requires transaction state 1 or 2 and session state 1, validates the
parsed recipient and prepends it;
DATA sends 503 when out of sequence BUT FALLS THROUGH REGARDLESS (there is
no else), sends 354, collects lines, writes all 1025 buffer rows to the
spool file, links it into every recipient mailbox, resets the transaction
state to 0 — leaving the recipient list untouched — and replies 250;
RSET clears sender, recipient list and transaction state;
VRFY scans the blank tokens for one holding an at sign, chops its last byte
and echoes it when it is a known user (no token with an at sign makes the C
code pass NULL to `strlen`: undefined behaviour, modelled as no reply);
QUIT replies and breaks; NOOP replies 250; anything else replies 500. -/
def smtpRun (creds : Creds) (junk : Nat → Str) :
    Nat → SmtpConfig → SmtpFS → List Str → List SmtpResp × SmtpConfig × SmtpFS
  | 0, cfg, fs, _ => ([], cfg, fs)
  | _ + 1, cfg, fs, [] => ([], cfg, fs)
  | fuel + 1, cfg, fs, l :: rest =>
    match stripCRLF l with
    | none => smtpRun creds junk fuel cfg fs rest
    | some cmd =>
      if ciPre "HELO".data cmd || ciPre "EHLO".data cmd then
        let t := smtpRun creds junk fuel { cfg with session_state := 1 } fs rest
        (SmtpResp.heloOk :: t.1, t.2)
      else if ciPre "MAIL".data cmd then
        if cfg.session_state = 1 then
          let s := get_client true cmd
          let cfg2 := { cfg with sender := s }
          match s with
          | none =>
            let t := smtpRun creds junk fuel cfg2 fs rest
            (SmtpResp.invalidArg :: t.1, t.2)
          | some x =>
            if x = [] then
              let t := smtpRun creds junk fuel cfg2 fs rest
              (SmtpResp.invalidArg :: t.1, t.2)
            else
              let t := smtpRun creds junk fuel { cfg2 with transaction_state := 1 } fs rest
              (SmtpResp.ok :: t.1, t.2)
        else
          let t := smtpRun creds junk fuel cfg fs rest
          (SmtpResp.badSeq :: t.1, t.2)
      else if ciPre "RCPT".data cmd then
        if (cfg.transaction_state ≠ 1 ∧ cfg.transaction_state ≠ 2) ∨ cfg.session_state = 0 then
          let t := smtpRun creds junk fuel cfg fs rest
          (SmtpResp.badSeq :: t.1, t.2)
        else
          match get_client false cmd with
          | none =>
            let t := smtpRun creds junk fuel cfg fs rest
            (SmtpResp.invalidArg :: t.1, t.2)
          | some r =>
            if is_valid_user creds r none then
              let t := smtpRun creds junk fuel
                { cfg with user_list := r :: cfg.user_list, transaction_state := 2 } fs rest
              (SmtpResp.ok :: t.1, t.2)
            else
              let t := smtpRun creds junk fuel cfg fs rest
              (SmtpResp.userNotLocal :: t.1, t.2)
      else if ciEq "DATA".data cmd then
        let pre : List SmtpResp :=
          if cfg.session_state = 0 ∨ cfg.transaction_state ≠ 2 then [SmtpResp.badSeq] else []
        let col := smtpCollect rest 0
        let fs2 := save_user_mail (bodyBytes junk col.1) cfg.user_list fs
        let t := smtpRun creds junk fuel { cfg with transaction_state := 0 } fs2 col.2
        (pre ++ SmtpResp.dataStart :: SmtpResp.ok :: t.1, t.2)
      else if ciEq "RSET".data cmd then
        let t := smtpRun creds junk fuel
          { cfg with sender := none, user_list := [], transaction_state := 0 } fs rest
        (SmtpResp.ok :: t.1, t.2)
      else if ciPre "VRFY".data cmd then
        match (cTokens [' '] cmd).find? (fun tk => tk.elem '@') with
        | none => smtpRun creds junk fuel cfg fs rest
        | some tk =>
          let d := tk.dropLast
          if is_valid_user creds d none then
            let t := smtpRun creds junk fuel cfg fs rest
            (SmtpResp.vrfyEcho d :: SmtpResp.ok :: t.1, t.2)
          else
            let t := smtpRun creds junk fuel cfg fs rest
            (SmtpResp.ambiguous :: t.1, t.2)
      else if ciEq "QUIT".data cmd then ([SmtpResp.quitR], cfg, fs)
      else if ciPre "NOOP".data cmd then
        let t := smtpRun creds junk fuel cfg fs rest
        (SmtpResp.ok :: t.1, t.2)
      else
        let t := smtpRun creds junk fuel cfg fs rest
        (SmtpResp.invalid :: t.1, t.2)

/-- The command loop started in a given state, with the always-sufficient fuel
bound (each iteration consumes at least one line). -/
def smtpSession (creds : Creds) (junk : Nat → Str) (cfg : SmtpConfig) (fs : SmtpFS)
    (lines : List Str) : List SmtpResp × SmtpConfig × SmtpFS :=
  smtpRun creds junk (lines.length + 1) cfg fs lines

/-- A whole SMTP session: the 220 greeting, then the command loop from the
initial state. -/
def smtpHandle (creds : Creds) (junk : Nat → Str) (fs : SmtpFS) (lines : List Str) :
    List SmtpResp × SmtpConfig × SmtpFS :=
  let t := smtpSession creds junk initSmtp fs lines
  (SmtpResp.ready :: t.1, t.2)

/-! ### Concrete fixtures used by the claim theorems -/

/-- Credential file for the POP scenarios: one user `bob` with password `pw`. -/
def credsPop : Creds := [("bob".data, "pw".data)]

/-- Mail store holding one message file of 7 bytes in bob's mailbox. -/
def fsBob : PopFS := [("mail.store/bob/0.mail".data, 7)]

/-- Credential file for the SMTP scenarios (usernames are full addresses, as
`get_client` keeps the domain part of `RCPT TO:<local@domain>`). -/
def credsSmtp : Creds := [("bob@x".data, "b".data), ("carol@x".data, "c".data)]

/-- All-zero stack residue: every `text_buffer` row reads back empty. -/
def junkNone : Nat → Str := fun _ => []

/-- Stack residue with one nonzero byte in row 1 of `text_buffer`. -/
def junkRow1 : Nat → Str := fun i => if i = 1 then ['J'] else []

/-- Two complete MAIL/RCPT/DATA transactions, to bob then to carol. -/
def linesTwoTx : List Str :=
  ["HELO c\r\n".data, "MAIL FROM:<a@x>\r\n".data, "RCPT TO:<bob@x>\r\n".data,
   "DATA\r\n".data, "X\r\n".data, ".\r\n".data,
   "MAIL FROM:<a@x>\r\n".data, "RCPT TO:<carol@x>\r\n".data,
   "DATA\r\n".data, "Y\r\n".data, ".\r\n".data, "QUIT\r\n".data]

/-! ### Claim C1 -/

/-- Claim C1, code_bug evidence.  In state RECIPIENTS_SET (session 1,
transaction 2, recipient list [bob]) the DATA branch sends the intermediate
354 reply and collects the body line "hello\r\n" up to the dot line, but the
delivered file holds the body FOLLOWED BY the residual bytes of the 1024
never-filled rows of the uninitialised stack array `text_buffer` (here the
single byte J sitting in row 1), because the write loop runs over all 1025
rows instead of the `idx` filled ones.  The claim's "nothing prepended or
appended" fails whenever that stack residue is nonempty. -/
theorem c1_data_delivery_appends_residue :
    smtpSession credsSmtp junkRow1 ⟨1, 2, none, ["bob".data]⟩ []
        ["DATA\r\n".data, "hello\r\n".data, ".\r\n".data]
      = ([SmtpResp.dataStart, SmtpResp.ok], ⟨1, 0, none, ["bob".data]⟩,
         [("bob".data, ["hello\r\nJ".data])])
    ∧ "hello\r\nJ".data ≠ "hello\r\n".data := by decide

/-! ### Claim C2 -/

/-- Claim C2, code_bug evidence.  After the first completed DATA (delivering
"X\r\n" to bob) the code resets only `transaction_state`; the recipient
list still holds bob (second conjunct).  The second transaction adds carol
and its DATA then delivers "Y\r\n" to BOTH carol and bob, so bob's mailbox
ends with two messages (first conjunct) although bob was a recipient only
of the first transaction. -/
theorem c2_recipients_survive_delivery :
    (smtpHandle credsSmtp junkNone [] linesTwoTx).2.2
      = [("bob@x".data, ["X\r\n".data, "Y\r\n".data]), ("carol@x".data, ["Y\r\n".data])]
    ∧ (smtpHandle credsSmtp junkNone [] (linesTwoTx.take 6)).2.1
      = ⟨1, 0, some "a@x".data, ["bob@x".data]⟩ := by decide

/-! ### Claim C5 -/

/-- Claim C5, code_bug evidence.  A DATA command in the initial state (not
RECIPIENTS_SET) gets the 503 out-of-sequence reply, but the branch then
falls through: the 354 intermediate reply is sent anyway, the following
lines are consumed as a message body up to the dot (they are NOT
interpreted as commands: no 500 reply is seen for "hello\r\n") and the
branch completes with 250.  Only the empty recipient list keeps the store
unchanged. -/
theorem c5_data_out_of_sequence_falls_through :
    smtpHandle credsSmtp junkNone [] ["DATA\r\n".data, "hello\r\n".data, ".\r\n".data]
      = ([SmtpResp.ready, SmtpResp.badSeq, SmtpResp.dataStart, SmtpResp.ok],
         initSmtp, []) := by decide

/-! ### Claim C3 -/

/-- Claim C3, counterexample.  bob authenticates and marks the only message
deleted; when the connection then ends without QUIT (the read loop sees
`nb_read_line` return 0 or less), `handle_client` returns WITHOUT calling
`destroy_mail_list`: the message file is still in the store (first
conjunct), unlike the QUIT path, which removes it (second conjunct).  So a
read-failure teardown is not "exactly as after QUIT" — the marked entry's
file is not removed at all. -/
theorem c3_counterexample :
    (popRun credsPop fsBob initPop
        ["USER bob\r\n".data, "PASS pw\r\n".data, "DELE 1\r\n".data]).2 = fsBob
    ∧ (popRun credsPop fsBob initPop
        ["USER bob\r\n".data, "PASS pw\r\n".data, "DELE 1\r\n".data, "QUIT\r\n".data]).2 = []
    ∧ fsBob ≠ [] := by decide

/-! ### Claim C4 -/

/-- Claim C4, counterexample.  USER with the known name bob is positive, PASS
with a wrong password is negative — but the session does NOT revert to
UNAUTHENTICATED: `auth_state` stays 2, so the subsequent `USER bob` of the
claim gets a NEGATIVE reply (final `err` below), not the claimed positive
one. -/
theorem c4_counterexample :
    (popHandle credsPop fsBob
        ["USER bob\r\n".data, "PASS wrong\r\n".data, "USER bob\r\n".data]).1
      = [PopResp.ready, PopResp.ok, PopResp.err, PopResp.err] := by decide

/-! ### Claim C9 -/

/-- Claim C9, counterexample.  The line "XYZZY\r\n" matches no branch of the
dispatch chain, which has no final else: the session sends NO reply at all
(the claim says a negative reply is sent); the store — and, as the amended
theorem shows, the whole session state — is untouched. -/
theorem c9_counterexample :
    popRun credsPop fsBob initPop ["XYZZY\r\n".data] = ([], fsBob) := by decide

/-! ### Claim C6 -/

/-- The first credential entry whose username matches case-insensitively —
the specification's "first matching entry". -/
def findCred : Creds → Str → Option (Str × Str)
  | [], _ => none
  | pr :: rest, u => if ciEq u pr.1 then some pr else findCred rest u

/-- Claim C6, confirmed.  Over any credential pair list: with no password,
`is_valid_user` is true exactly when some entry's username matches
case-insensitively; with a password, exactly when the password equals, byte
for byte, the password of the FIRST case-insensitively matching entry; and
the result only depends on the username through its lowercase image, so it
is unchanged under changing the letter case of the username. -/
theorem is_valid_user_spec (e : Creds) (u w p : Str) :
    (is_valid_user e u none = true ↔ ∃ pr, pr ∈ e ∧ ciEq u pr.1 = true) ∧
    (is_valid_user e u (some p) = true ↔ ∃ pr, findCred e u = some pr ∧ p = pr.2) ∧
    (lowerL u = lowerL w → ∀ pw, is_valid_user e u pw = is_valid_user e w pw) := by
  refine ⟨?_, ?_, ?_⟩
  · induction e with
    | nil => simp [is_valid_user]
    | cons pr rest ih =>
      cases h : ciEq u pr.1 with
      | true =>
        simp only [is_valid_user, h, if_true]
        exact ⟨fun _ => ⟨pr, List.mem_cons_self pr rest, h⟩, fun _ => trivial⟩
      | false =>
        simp only [is_valid_user, h, Bool.false_eq_true, if_false]
        rw [ih]
        constructor
        · rintro ⟨pr2, hm, hc⟩
          exact ⟨pr2, List.mem_cons_of_mem _ hm, hc⟩
        · rintro ⟨pr2, hm, hc⟩
          rcases List.mem_cons.mp hm with rfl | hm2
          · rw [h] at hc
            cases hc
          · exact ⟨pr2, hm2, hc⟩
  · induction e with
    | nil => simp [is_valid_user, findCred]
    | cons pr rest ih =>
      cases h : ciEq u pr.1 with
      | true =>
        simp only [is_valid_user, findCred, h, if_true]
        constructor
        · intro hb
          exact ⟨pr, rfl, (beq_iff_eq.mp hb)⟩
        · rintro ⟨pr2, he, hp2⟩
          cases Option.some.inj he
          exact beq_iff_eq.mpr hp2
      | false =>
        simpa only [is_valid_user, findCred, h, Bool.false_eq_true, if_false] using ih
  · intro h pw
    induction e with
    | nil => rfl
    | cons pr rest ih =>
      have hc : ciEq u pr.1 = ciEq w pr.1 := by unfold ciEq; rw [h]
      simp only [is_valid_user, hc, ih]

/-- Claim C6 witness: instantiating the case-insensitivity part at a concrete
store and the usernames ALICE / Alice. -/
theorem is_valid_user_spec_witness :
    lowerL "ALICE".data = lowerL "Alice".data ∧
    is_valid_user [("alice".data, "Pw".data)] "ALICE".data (some "Pw".data)
      = is_valid_user [("alice".data, "Pw".data)] "Alice".data (some "Pw".data) :=
  ⟨by decide,
   (is_valid_user_spec [("alice".data, "Pw".data)] "ALICE".data "Alice".data
      "Pw".data).2.2 (by decide) (some "Pw".data)⟩

/-! ### Claim C7 -/

/-- `List.set` steps under a cons for a successor index (definitional). -/
theorem set_cons_succ (a : MailItem) (l : List MailItem) (n : Nat) (v : MailItem) :
    (a :: l).set (n + 1) v = a :: l.set n v := rfl

theorem reset_counts (m : List MailItem) :
    (reset_mail_list_deleted_flag m).1 = countDeleted m := by
  induction m with
  | nil => rfl
  | cons it rest ih =>
    simp only [reset_mail_list_deleted_flag]
    cases h : it.deleted
    · simpa [countDeleted, List.filter_cons, h] using ih
    · simp [countDeleted, List.filter_cons, h] at ih ⊢
      omega

theorem markSet_count : ∀ (l : List MailItem) (i : Nat) (it : MailItem),
    l.get? i = some it → it.deleted = false →
    get_mail_count (l.set i (mark_mail_item_deleted it)) + 1 = get_mail_count l
  | [], i, it, hg, _ => by cases hg
  | a :: rest, 0, it, hg, hd => by
    cases Option.some.inj hg
    simp [get_mail_count, mark_mail_item_deleted, hd, Nat.add_comm]
  | a :: rest, i + 1, it, hg, hd => by
    have ih := markSet_count rest i it hg hd
    simp only [set_cons_succ, get_mail_count]
    omega

theorem markSet_size : ∀ (l : List MailItem) (i : Nat) (it : MailItem),
    l.get? i = some it → it.deleted = false →
    get_mail_list_size (l.set i (mark_mail_item_deleted it)) + it.file_size
      = get_mail_list_size l
  | [], i, it, hg, _ => by cases hg
  | a :: rest, 0, it, hg, hd => by
    cases Option.some.inj hg
    simp [get_mail_list_size, mark_mail_item_deleted, hd, Nat.add_comm]
  | a :: rest, i + 1, it, hg, hd => by
    have ih := markSet_size rest i it hg hd
    simp only [set_cons_succ, get_mail_list_size]
    omega

theorem markSet_get_self : ∀ (l : List MailItem) (i : Nat) (it : MailItem),
    l.get? i = some it →
    get_mail_item (l.set i (mark_mail_item_deleted it)) i = none
  | [], i, it, hg => by cases hg
  | a :: rest, 0, it, hg => by
    simp [get_mail_item, mark_mail_item_deleted]
  | a :: rest, i + 1, it, hg => by
    simpa only [set_cons_succ, get_mail_item] using
      markSet_get_self rest i it hg

theorem markSet_get_other : ∀ (l : List MailItem) (i : Nat) (it : MailItem) (j : Nat),
    j ≠ i →
    get_mail_item (l.set i (mark_mail_item_deleted it)) j = get_mail_item l j
  | [], _, _, _, _ => by simp
  | a :: rest, 0, it, 0, hj => absurd rfl hj
  | a :: rest, 0, it, j + 1, _ => by simp [get_mail_item]
  | a :: rest, i + 1, it, 0, _ => by simp [set_cons_succ, get_mail_item]
  | a :: rest, i + 1, it, j + 1, hj => by
    simpa only [set_cons_succ, get_mail_item] using
      markSet_get_other rest i it j (fun he => hj (by rw [he]))

/-- Claim C7, confirmed.  Marking the entry at position `i` of a snapshot
deleted (through the pointer `get_mail_item` hands out) removes exactly that
entry's contribution from the non-deleted count and from the aggregate byte
size, makes lookup at `i` return absent, leaves lookup at every other
position untouched (positions are never renumbered), and
reset-all-deletions returns exactly the number of entries marked deleted. -/
theorem mark_mail_item_frame (l : List MailItem) (i : Nat) (it : MailItem)
    (hg : l.get? i = some it) (hd : it.deleted = false) :
    get_mail_count (markAt l i) + 1 = get_mail_count l ∧
    get_mail_list_size (markAt l i) + it.file_size = get_mail_list_size l ∧
    get_mail_item (markAt l i) i = none ∧
    (∀ j, j ≠ i → get_mail_item (markAt l i) j = get_mail_item l j) ∧
    (∀ m : List MailItem, (reset_mail_list_deleted_flag m).1 = countDeleted m) := by
  unfold markAt
  rw [hg]
  exact ⟨markSet_count l i it hg hd, markSet_size l i it hg hd,
    markSet_get_self l i it hg, fun j hj => markSet_get_other l i it j hj,
    reset_counts⟩

/-- Claim C7 witness: the frame property applied to a concrete two-entry
snapshot, marking position 0. -/
theorem mark_mail_item_frame_witness :
    ([⟨"a".data, 3, false⟩, ⟨"b".data, 5, false⟩] : List MailItem).get? 0
        = some ⟨"a".data, 3, false⟩ ∧
    (MailItem.mk "a".data 3 false).deleted = false ∧
    (get_mail_count (markAt [⟨"a".data, 3, false⟩, ⟨"b".data, 5, false⟩] 0) + 1
        = get_mail_count [⟨"a".data, 3, false⟩, ⟨"b".data, 5, false⟩] ∧
     get_mail_list_size (markAt [⟨"a".data, 3, false⟩, ⟨"b".data, 5, false⟩] 0) + 3
        = get_mail_list_size [⟨"a".data, 3, false⟩, ⟨"b".data, 5, false⟩] ∧
     get_mail_item (markAt [⟨"a".data, 3, false⟩, ⟨"b".data, 5, false⟩] 0) 0 = none ∧
     (∀ j, j ≠ 0 →
        get_mail_item (markAt [⟨"a".data, 3, false⟩, ⟨"b".data, 5, false⟩] 0) j
          = get_mail_item [⟨"a".data, 3, false⟩, ⟨"b".data, 5, false⟩] j) ∧
     (∀ m : List MailItem, (reset_mail_list_deleted_flag m).1 = countDeleted m)) :=
  ⟨by decide, by decide,
   mark_mail_item_frame [⟨"a".data, 3, false⟩, ⟨"b".data, 5, false⟩] 0
     ⟨"a".data, 3, false⟩ (by decide) (by decide)⟩

/-! ### Stepping lemmas for the nb_read_line loop -/

theorem nbF_step_found (maxB fuel : Nat) (buf : Str) (st : List Chunk) (i : Nat)
    (h : lineEnd buf = some i) :
    nbReadLineF maxB (fuel + 1) buf st = nbOut (i + 1) buf st := by
  rw [nbReadLineF, h]

theorem nbF_step_full_buf (maxB fuel : Nat) (buf : Str) (st : List Chunk)
    (hne : lineEnd buf = none) (hge : ¬ buf.length < maxB) :
    nbReadLineF maxB (fuel + 1) buf st = nbOut maxB buf st := by
  rw [nbReadLineF, hne, if_neg hge]

theorem nbF_step_empty_queue (maxB fuel : Nat) (buf : Str)
    (hne : lineEnd buf = none) (hlt : buf.length < maxB) :
    nbReadLineF maxB (fuel + 1) buf [] = nbOut buf.length buf [] := by
  rw [nbReadLineF, hne, if_pos hlt]
  rfl

theorem nbF_step_err (maxB fuel : Nat) (buf : Str) (rest : List Chunk)
    (hne : lineEnd buf = none) (hlt : buf.length < maxB) :
    nbReadLineF maxB (fuel + 1) buf (none :: rest) = (-1, [], buf, rest) := by
  rw [nbReadLineF, hne, if_pos hlt]
  rfl

theorem nbF_step_closed (maxB fuel : Nat) (buf : Str) (rest : List Chunk)
    (hne : lineEnd buf = none) (hlt : buf.length < maxB) :
    nbReadLineF maxB (fuel + 1) buf (some [] :: rest) = nbOut buf.length buf rest := by
  rw [nbReadLineF, hne, if_pos hlt, recvM, if_pos (by simp)]

theorem nbF_step_full_read (maxB fuel : Nat) (buf : Str) (rest : List Chunk) (c : Str)
    (hne : lineEnd buf = none) (hlt : buf.length < maxB)
    (hc : c.length ≤ maxB - buf.length) (hcne : c ≠ []) :
    nbReadLineF maxB (fuel + 1) buf (some c :: rest)
      = nbReadLineF maxB fuel (buf ++ c) rest := by
  rw [nbReadLineF, hne, if_pos hlt, recvM, if_pos hc]
  cases c with
  | nil => exact absurd rfl hcne
  | cons a as => rfl

theorem nbF_step_push (maxB fuel : Nat) (buf : Str) (rest : List Chunk) (c : Str)
    (hne : lineEnd buf = none) (hlt : buf.length < maxB)
    (hc : ¬ c.length ≤ maxB - buf.length) :
    nbReadLineF maxB (fuel + 1) buf (some c :: rest)
      = nbReadLineF maxB fuel (buf ++ c.take (maxB - buf.length))
          (some (c.drop (maxB - buf.length)) :: rest) := by
  rw [nbReadLineF, hne, if_pos hlt, recvM, if_neg hc]
  rcases hct : c.take (maxB - buf.length) with _ | ⟨a, as⟩
  · have hl := congrArg List.length hct
    simp only [List.length_take, List.length_nil] at hl
    omega
  · rfl

/-! ### Claim C8 -/

/-- Claim C8, confirmed, as the three specified stream scenarios.
Coalescing: one arrival "A\nB\n" is handed out as "A\n" and then (from the
shifted buffer, no further arrival) "B\n".  Reassembly: arrivals "A" then
"B\n" come back as the single line "AB\n" from one call.  Overflow: an
arrival starting with `maxB` LF-free bytes `u` yields the terminator-less
line `u` of exactly the capacity length, and leaves the machine in the
fresh state on the overflow remainder `v`, so the next call continues from
the overflow point. -/
theorem nb_read_line_scenarios (maxB : Nat) (u v : Str) :
    (4 ≤ maxB →
      nb_read_line maxB [] [some ('A' :: '\n' :: 'B' :: '\n' :: [])]
        = (2, 'A' :: '\n' :: nulC :: [], 'B' :: '\n' :: [], []) ∧
      nb_read_line maxB ('B' :: '\n' :: []) []
        = (2, 'B' :: '\n' :: nulC :: [], [], [])) ∧
    (3 ≤ maxB →
      nb_read_line maxB [] [some ['A'], some ('B' :: '\n' :: [])]
        = (3, 'A' :: 'B' :: '\n' :: nulC :: [], [], [])) ∧
    (u.length = maxB → lineEnd u = none → v ≠ [] →
      nb_read_line maxB [] [some (u ++ v)]
        = (Int.ofNat maxB, u ++ [nulC], [], [some v])) := by
  refine ⟨fun h => ⟨?_, ?_⟩, fun h => ?_, fun hu hne hv => ?_⟩
  · rw [nb_read_line,
      nbF_step_full_read maxB _ [] [] ('A' :: '\n' :: 'B' :: '\n' :: []) rfl
        (by simp; omega) (by simp; omega) (by simp)]
    rw [List.nil_append]
    show nbReadLineF maxB (0 + 1) ('A' :: '\n' :: 'B' :: '\n' :: []) [] = _
    rw [nbF_step_found maxB 0 _ _ 1 (by decide)]
    decide
  · rw [nb_read_line, nbF_step_found maxB _ _ _ 1 (by decide)]
    decide
  · rw [nb_read_line,
      nbF_step_full_read maxB _ [] [some ('B' :: '\n' :: [])] ['A'] rfl
        (by simp; omega) (by simp; omega) (by simp)]
    rw [List.nil_append]
    show nbReadLineF maxB (1 + 1) ['A'] [some ('B' :: '\n' :: [])] = _
    rw [nbF_step_full_read maxB _ ['A'] [] ('B' :: '\n' :: []) (by decide)
        (by simp; omega) (by simp; omega) (by simp)]
    show nbReadLineF maxB (0 + 1) ('A' :: 'B' :: '\n' :: []) [] = _
    rw [nbF_step_found maxB 0 _ _ 2 (by decide)]
    decide
  · rcases Nat.eq_zero_or_pos maxB with hz | hp
    · have hu0 : u = [] := List.eq_nil_of_length_eq_zero (by omega)
      subst hu0
      subst hz
      simp only [List.nil_append]
      rw [nb_read_line, nbF_step_full_buf 0 _ [] [some v] rfl (by simp)]
      simp [nbOut]
    · have hvp : 0 < v.length := List.length_pos.mpr hv
      rw [nb_read_line,
        nbF_step_push maxB _ [] [] (u ++ v) rfl (by simpa using hp)
          (by simp only [List.length_append, List.length_nil, Nat.sub_zero]; omega)]
      have hts : (u ++ v).take (maxB - List.length ([] : Str)) = u := by
        simp only [List.length_nil, Nat.sub_zero, ← hu]
        exact List.take_left u v
      have hds : (u ++ v).drop (maxB - List.length ([] : Str)) = v := by
        simp only [List.length_nil, Nat.sub_zero, ← hu]
        exact List.drop_left u v
      rw [hts, hds, List.nil_append]
      show nbReadLineF maxB (0 + 1) u [some v] = _
      rw [nbF_step_full_buf _ _ _ _ hne (by omega)]
      simp only [nbOut, ← hu, List.take_length, List.drop_length]

/-- Claim C8 witness: the three scenarios at capacity 4, with overflow input
"ABCDE\n". -/
theorem nb_read_line_scenarios_witness :
    ((4 : Nat) ≤ 4 ∧ ("ABCD".data : Str).length = 4 ∧ lineEnd "ABCD".data = none ∧
      "E\n".data ≠ ([] : Str)) ∧
    nb_read_line 4 [] [some ('A' :: '\n' :: 'B' :: '\n' :: [])]
      = (2, 'A' :: '\n' :: nulC :: [], 'B' :: '\n' :: [], []) ∧
    nb_read_line 4 [] [some ['A'], some ('B' :: '\n' :: [])]
      = (3, 'A' :: 'B' :: '\n' :: nulC :: [], [], []) ∧
    nb_read_line 4 [] [some ("ABCD".data ++ "E\n".data)]
      = (Int.ofNat 4, "ABCD".data ++ [nulC], [], [some "E\n".data]) :=
  ⟨by decide,
   ((nb_read_line_scenarios 4 "ABCD".data "E\n".data).1 (by decide)).1,
   (nb_read_line_scenarios 4 "ABCD".data "E\n".data).2.1 (by decide),
   (nb_read_line_scenarios 4 "ABCD".data "E\n".data).2.2 (by decide) (by decide)
     (by decide)⟩

/-! ### Claim C10 -/

theorem lineEnd_lt : ∀ (l : Str) (i : Nat), lineEnd l = some i → i < l.length
  | [], i, h => by cases h
  | c :: rest, i, h => by
    rw [lineEnd] at h
    by_cases hc : c = '\n'
    · rw [if_pos hc] at h
      cases h
      simp
    · rw [if_neg hc] at h
      rcases Option.map_eq_some'.mp h with ⟨j, hj, hji⟩
      have := lineEnd_lt rest j hj
      simp only [List.length_cons]
      omega

/-- What one `nb_read_line` call guarantees about its result `r`: either a
negative return with nothing written to `out`, or a return value equal to
the length of the returned line, at most the capacity, with `out` receiving
exactly that line followed by one NUL byte; in both cases the data left
buffered still fits the capacity. -/
def NbSpec (maxB : Nat) (r : Int × Str × Str × List Chunk) : Prop :=
  ((r.1 < 0 ∧ r.2.1 = []) ∨
    (∃ line : Str, r.1 = Int.ofNat line.length ∧ line.length ≤ maxB ∧
      r.2.1 = line ++ [nulC])) ∧
  r.2.2.1.length ≤ maxB

theorem nbF_spec (maxB : Nat) :
    ∀ (fuel : Nat) (buf : Str) (st : List Chunk), buf.length ≤ maxB →
      NbSpec maxB (nbReadLineF maxB fuel buf st) := by
  intro fuel
  induction fuel with
  | zero =>
    exact fun buf st hb => ⟨Or.inl ⟨by show (-1 : Int) < 0; norm_num, rfl⟩, hb⟩
  | succ n ih =>
    intro buf st hb
    cases hle : lineEnd buf with
    | some i =>
      have hilt := lineEnd_lt buf i hle
      rw [nbF_step_found maxB n buf st i hle]
      refine ⟨Or.inr ⟨buf.take (i + 1), ?_, ?_, rfl⟩, ?_⟩
      · simp only [nbOut, List.length_take]
        congr 1
        omega
      · simp only [List.length_take]
        omega
      · simp only [nbOut, List.length_drop]
        omega
    | none =>
      by_cases hlt : buf.length < maxB
      · match st with
        | [] =>
          rw [nbF_step_empty_queue maxB n buf hle hlt]
          exact ⟨Or.inr ⟨buf, rfl, hb, by simp [nbOut]⟩, by simp [nbOut]⟩
        | none :: rest =>
          rw [nbF_step_err maxB n buf rest hle hlt]
          exact ⟨Or.inl ⟨by norm_num, rfl⟩, hb⟩
        | some [] :: rest =>
          rw [nbF_step_closed maxB n buf rest hle hlt]
          exact ⟨Or.inr ⟨buf, rfl, hb, by simp [nbOut]⟩, by simp [nbOut]⟩
        | some (a :: as) :: rest =>
          by_cases hc : (a :: as).length ≤ maxB - buf.length
          · rw [nbF_step_full_read maxB n buf rest (a :: as) hle hlt hc (by simp)]
            exact ih (buf ++ a :: as) rest (by simp only [List.length_append]; omega)
          · rw [nbF_step_push maxB n buf rest (a :: as) hle hlt hc]
            refine ih _ _ ?_
            simp only [List.length_append, List.length_take]
            omega
      · rw [nbF_step_full_buf maxB n buf st hle hlt]
        have hbe : buf.length = maxB := by omega
        refine ⟨Or.inr ⟨buf.take maxB, ?_, ?_, rfl⟩, ?_⟩
        · simp only [nbOut, List.length_take]
          congr 1
          omega
        · simp only [List.length_take]
          omega
        · simp only [nbOut, List.length_drop]
          omega

/-- Claim C10, confirmed.  For a buffer of capacity `maxB` whose buffered data
respects the capacity (as `nb_create` starts it and, by the same statement,
every call keeps it), a `nb_read_line` call either returns a negative error
indicator — distinct from the 0 an orderly close yields — having written
nothing to `out`, or returns the length `n` of the returned line with
`0 ≤ n ≤ maxB`, writing exactly those `n` bytes plus one NUL terminator
(so at most `maxB + 1` bytes) into `out`. -/
theorem nb_read_line_bounds (maxB : Nat) (buf : Str) (st : List Chunk)
    (hb : buf.length ≤ maxB) : NbSpec maxB (nb_read_line maxB buf st) :=
  nbF_spec maxB (st.length + 1) buf st hb

/-- Claim C10 witness: the bound at capacity 4 on the empty buffer against a
closed connection. -/
theorem nb_read_line_bounds_witness :
    ([] : Str).length ≤ 4 ∧ NbSpec 4 (nb_read_line 4 [] []) :=
  ⟨by decide, nb_read_line_bounds 4 [] [] (by decide)⟩

/-! ### Claim C3, amended -/

theorem popStep_quit (creds : Creds) (fs : PopFS) (cfg : PopConfig) (cmd : Str)
    (h : (popStep creds fs cfg cmd).2.2 = true) : ciEq "QUIT".data cmd = true := by
  unfold popStep at h
  split_ifs at h
  simp_all

/-- Claim C3 (amended): when a retrieval session's connection ends by a read
failure or stream closure without a QUIT command, `handle_client` returns
WITHOUT closing the snapshot: no reply is sent and no marked entry's
message file is removed — the store is exactly as it was (deletions are
committed only by the QUIT path). -/
theorem pop_disconnect_commits_nothing (creds : Creds) (fs : PopFS) (cfg : PopConfig)
    (lines : List Str)
    (h : lines.all (fun l => (stripCRLF l).all (fun c => ! ciEq "QUIT".data c)) = true) :
    (popRun creds fs cfg lines).2 = fs := by
  induction lines generalizing cfg with
  | nil => rfl
  | cons l rest ih =>
    rw [List.all_cons, Bool.and_eq_true] at h
    cases hs : stripCRLF l with
    | none =>
      rw [popRun, hs]
      exact ih cfg h.2
    | some cmd =>
      have hnq : ciEq "QUIT".data cmd = false := by
        have h1 := h.1
        rw [hs, Option.all_some, Bool.not_eq_true'] at h1
        exact h1
      have hq : (popStep creds fs cfg cmd).2.2 = false := by
        cases hqq : (popStep creds fs cfg cmd).2.2
        · rfl
        · rw [popStep_quit creds fs cfg cmd hqq] at hnq
          cases hnq
      rw [popRun, hs]
      simp only [hq, Bool.false_eq_true, if_false]
      exact ih _ h.2

/-- Claim C3 (amended) witness: a session that authenticates, deletes the only
message and then loses the connection leaves the store unchanged. -/
theorem pop_disconnect_commits_nothing_witness :
    (["USER bob\r\n".data, "PASS pw\r\n".data, "DELE 1\r\n".data].all
        (fun l => (stripCRLF l).all (fun c => ! ciEq "QUIT".data c)) = true) ∧
    (popRun credsPop fsBob initPop
        ["USER bob\r\n".data, "PASS pw\r\n".data, "DELE 1\r\n".data]).2 = fsBob :=
  ⟨by decide,
   pop_disconnect_commits_nothing credsPop fsBob initPop
     ["USER bob\r\n".data, "PASS pw\r\n".data, "DELE 1\r\n".data] (by decide)⟩

/-! ### Claim C9, amended -/

/-- The dispatch predicates of the mypopd.c command chain, in chain order. -/
def popRecognized (cmd : Str) : Bool :=
  ciPre "USER".data cmd || ciPre "PASS".data cmd || ciEq "STAT".data cmd ||
  ciPre "LIST".data cmd || ciPre "RETR".data cmd || ciPre "DELE".data cmd ||
  ciEq "NOOP".data cmd || ciEq "RSET".data cmd || ciEq "QUIT".data cmd

/-- Claim C9 (amended): a received line whose tokenised command matches none of
the dispatch tests (case-ignoring word USER/PASS/LIST/RETR/DELE at the
start, or case-ignoring equality with STAT/NOOP/RSET/QUIT) produces NO
reply at all — the chain has no final else — and leaves the whole session
state (authentication fields and snapshot) unchanged. -/
theorem pop_unrecognized_silent (creds : Creds) (fs : PopFS) (cfg : PopConfig)
    (cmd : Str) (h : popRecognized cmd = false) :
    popStep creds fs cfg cmd = (cfg, [], false) := by
  unfold popRecognized at h
  simp only [Bool.or_eq_false_iff] at h
  obtain ⟨⟨⟨⟨⟨⟨⟨⟨h1, h2⟩, h3⟩, h4⟩, h5⟩, h6⟩, h7⟩, h8⟩, h9⟩ := h
  unfold popStep
  simp [h1, h2, h3, h4, h5, h6, h7, h8, h9]

/-- Claim C9 (amended) witness: the unmatched line XYZZY at the initial state. -/
theorem pop_unrecognized_silent_witness :
    popRecognized "XYZZY".data = false ∧
    popStep credsPop fsBob initPop "XYZZY".data = (initPop, [], false) :=
  ⟨by decide, pop_unrecognized_silent credsPop fsBob initPop "XYZZY".data (by decide)⟩

/-! ### Claim C4, amended -/

theorem ciPre_append (p k rest : Str) (h : p.length ≤ k.length) :
    ciPre p (k ++ rest) = ciPre p k := by
  unfold ciPre
  rw [List.take_append_of_le_length h]

theorem cTokensAux_nondelim_run (delims : Str) :
    ∀ (k s acc : Str), (∀ c ∈ k, ¬ c ∈ delims) →
      cTokensAux delims (k ++ s) acc = cTokensAux delims s (k.reverse ++ acc)
  | [], s, acc, _ => by simp
  | c :: ks, s, acc, h => by
    rw [List.cons_append, cTokensAux, if_neg (h c (List.mem_cons_self c ks))]
    rw [cTokensAux_nondelim_run delims ks s (c :: acc)
      (fun d hd => h d (List.mem_cons_of_mem c hd))]
    rw [List.reverse_cons, List.append_assoc, List.singleton_append]

theorem cTokens_single (delims u : Str) (hu : u ≠ []) (h : ∀ c ∈ u, ¬ c ∈ delims) :
    cTokens delims u = [u] := by
  unfold cTokens
  have h2 := cTokensAux_nondelim_run delims u [] [] h
  rw [List.append_nil] at h2
  rw [h2, cTokensAux, List.append_nil]
  have hue : u.reverse.isEmpty = false := by
    cases hr : u.reverse with
    | nil => exact absurd (List.reverse_eq_nil_iff.mp hr) hu
    | cons a as => rfl
  simp only [hue, Bool.false_eq_true, if_false, List.reverse_reverse]

theorem cTokens_keyword (delims k u : Str) (d : Char) (hd : d ∈ delims)
    (hk : k ≠ []) (hknd : ∀ c ∈ k, ¬ c ∈ delims)
    (hu : u ≠ []) (hund : ∀ c ∈ u, ¬ c ∈ delims) :
    cTokens delims (k ++ d :: u) = [k, u] := by
  unfold cTokens
  rw [cTokensAux_nondelim_run delims k (d :: u) [] hknd, List.append_nil]
  rw [cTokensAux, if_pos hd]
  have hke : k.reverse.isEmpty = false := by
    cases hr : k.reverse with
    | nil => exact absurd (List.reverse_eq_nil_iff.mp hr) hk
    | cons a as => rfl
  simp only [hke, Bool.false_eq_true, if_false, List.reverse_reverse]
  rw [show cTokensAux delims u [] = cTokens delims u from rfl,
    cTokens_single delims u hu hund]

theorem get_argument_keyword (k u : Str) (hk : k ≠ []) (hknd : ∀ c ∈ k, c ≠ ' ')
    (hu : u ≠ []) (hund : ∀ c ∈ u, c ≠ ' ') :
    get_argument (k ++ ' ' :: u) = some u := by
  unfold get_argument
  rw [if_pos (List.mem_append_right k (List.mem_cons_self ' ' u))]
  rw [cTokens_keyword [' '] k u ' ' (List.mem_singleton_self ' ') hk
    (fun c hc => by simp only [List.mem_singleton]; exact hknd c hc) hu
    (fun c hc => by simp only [List.mem_singleton]; exact hund c hc)]
  rfl

/-- Claim C4 (amended): after USER with a known name (positive) and PASS with
a wrong password (negative), the session does NOT revert to
UNAUTHENTICATED: it stays in the USER-accepted state (`auth_state` 2) with
no snapshot held.  A subsequent STAT still gets a negative reply and
changes nothing, but a subsequent USER — positive again per the original
claim — also gets a NEGATIVE reply and changes nothing; only a subsequent
PASS with the right password proceeds, loading the snapshot.  The
side conditions on `u`, `p`, `q` (non-empty, blank-free) make
`get_argument` yield them verbatim. -/
theorem pop_wrong_pass_keeps_state (creds : Creds) (fs : PopFS) (u p q : Str)
    (hu1 : u ≠ []) (hu2 : ∀ c ∈ u, c ≠ ' ')
    (hp1 : p ≠ []) (hp2 : ∀ c ∈ p, c ≠ ' ')
    (hq1 : q ≠ []) (hq2 : ∀ c ∈ q, c ≠ ' ')
    (hvu : is_valid_user creds u none = true)
    (hvp : is_valid_user creds u (some p) = false)
    (hvq : is_valid_user creds u (some q) = true) :
    popStep creds fs initPop ("USER ".data ++ u)
      = (⟨2, 0, some u, none⟩, [PopResp.ok], false) ∧
    popStep creds fs ⟨2, 0, some u, none⟩ ("PASS ".data ++ p)
      = (⟨2, 0, some u, none⟩, [PopResp.err], false) ∧
    popStep creds fs ⟨2, 0, some u, none⟩ "STAT".data
      = (⟨2, 0, some u, none⟩, [PopResp.err], false) ∧
    popStep creds fs ⟨2, 0, some u, none⟩ ("USER ".data ++ u)
      = (⟨2, 0, some u, none⟩, [PopResp.err], false) ∧
    popStep creds fs ⟨2, 0, some u, none⟩ ("PASS ".data ++ q)
      = (⟨2, 1, some u, some (load_user_mail fs u)⟩, [PopResp.ok], false) := by
  have dU : ciPre "USER".data ("USER ".data ++ u) = true := by
    rw [ciPre_append "USER".data "USER ".data u (by decide)]
    decide
  have dPU : ∀ r : Str, ciPre "USER".data ("PASS ".data ++ r) = false := fun r => by
    rw [ciPre_append "USER".data "PASS ".data r (by decide)]
    decide
  have dPP : ∀ r : Str, ciPre "PASS".data ("PASS ".data ++ r) = true := fun r => by
    rw [ciPre_append "PASS".data "PASS ".data r (by decide)]
    decide
  have gu : get_argument ("USER ".data ++ u) = some u := by
    rw [show "USER ".data ++ u = "USER".data ++ ' ' :: u from rfl]
    exact get_argument_keyword "USER".data u (by decide) (by decide) hu1 hu2
  have gp : get_argument ("PASS ".data ++ p) = some p := by
    rw [show "PASS ".data ++ p = "PASS".data ++ ' ' :: p from rfl]
    exact get_argument_keyword "PASS".data p (by decide) (by decide) hp1 hp2
  have gq : get_argument ("PASS ".data ++ q) = some q := by
    rw [show "PASS ".data ++ q = "PASS".data ++ ' ' :: q from rfl]
    exact get_argument_keyword "PASS".data q (by decide) (by decide) hq1 hq2
  refine ⟨?_, ?_, ?_, ?_, ?_⟩
  · unfold popStep
    simp only [dU, if_true]
    unfold popUser
    simp only [initPop, gu, hvu, if_true]
  · unfold popStep
    simp only [dPU, dPP, Bool.false_eq_true, if_false, if_true]
    unfold popPass
    simp only [gp, hvp, Bool.false_eq_true, if_false]
    rfl
  · rfl
  · unfold popStep
    simp only [dU, if_true]
    rfl
  · unfold popStep
    simp only [dPU, dPP, Bool.false_eq_true, if_false, if_true]
    unfold popPass
    simp only [gq, hvq, if_true]

/-- Claim C4 (amended) witness: bob with password pw, wrong attempt wrong. -/
theorem pop_wrong_pass_keeps_state_witness :
    ("bob".data ≠ ([] : Str) ∧ is_valid_user credsPop "bob".data none = true ∧
      is_valid_user credsPop "bob".data (some "wrong".data) = false ∧
      is_valid_user credsPop "bob".data (some "pw".data) = true) ∧
    (popStep credsPop fsBob initPop ("USER ".data ++ "bob".data)
      = (⟨2, 0, some "bob".data, none⟩, [PopResp.ok], false) ∧
    popStep credsPop fsBob ⟨2, 0, some "bob".data, none⟩ ("PASS ".data ++ "wrong".data)
      = (⟨2, 0, some "bob".data, none⟩, [PopResp.err], false) ∧
    popStep credsPop fsBob ⟨2, 0, some "bob".data, none⟩ "STAT".data
      = (⟨2, 0, some "bob".data, none⟩, [PopResp.err], false) ∧
    popStep credsPop fsBob ⟨2, 0, some "bob".data, none⟩ ("USER ".data ++ "bob".data)
      = (⟨2, 0, some "bob".data, none⟩, [PopResp.err], false) ∧
    popStep credsPop fsBob ⟨2, 0, some "bob".data, none⟩ ("PASS ".data ++ "pw".data)
      = (⟨2, 1, some "bob".data, some (load_user_mail fsBob "bob".data)⟩,
         [PopResp.ok], false)) :=
  ⟨by decide,
   pop_wrong_pass_keeps_state credsPop fsBob "bob".data "wrong".data "pw".data
     (by decide) (by decide) (by decide) (by decide) (by decide) (by decide)
     (by decide) (by decide) (by decide)⟩

end EmailServer
